import Mathlib

/-!
Shallow embedding of `src/inventory.py` (an Ansible dynamic-inventory script
reading `terraform output -json`), together with theorems settling the frozen
claims about it.

JSON values parsed from the external tool's standard output are modelled by
`JValue`; Python's `int(str)` by `pyInt`; `str.split('.')` by `splitOnDot`;
`str.replace` by `replaceList`.  The inventory dictionary built by
`TerraformInventory` is the structure `Inventory`, and Python `dict`
assignment / lookup are `dictSet` / `dictGet` on ordered association lists
(insertion-ordered, update-in-place, exactly Python's dict semantics).
-/

/-- A JSON value as Python's `json.loads` produces it: strings, lists,
numbers, booleans, `None`, objects (dicts, insertion-ordered). Floats do not
occur in any claim and are omitted. -/
inductive JValue where
  | vStr  (s : String)
  | vList (xs : List JValue)
  | vInt  (n : Int)
  | vBool (b : Bool)
  | vNull
  | vObj  (fields : List (String × JValue))
deriving Repr

/-- Python digit-run syntax after the first digit: digits, with a single
underscore allowed between two digits (`int("1_0") = 10`). -/
def pyDigitsAux : List Char → Bool
  | [] => true
  | '_' :: cs =>
    match cs with
    | [] => false
    | d :: _ => d.isDigit && pyDigitsAux cs
  | c :: cs => c.isDigit && pyDigitsAux cs

/-- A non-empty Python digit run: starts with a digit, underscores only
between digits. -/
def pyDigits : List Char → Bool
  | [] => false
  | c :: cs => c.isDigit && pyDigitsAux cs

/-- Numeric value of a digit run, ignoring underscores. -/
def digitsVal (cs : List Char) : Nat :=
  (cs.filter (fun c => c ≠ '_')).foldl (fun acc c => acc * 10 + (c.toNat - 48)) 0

/-- Python `int(s)` on a string: surrounding whitespace stripped, optional
sign, then a digit run; `none` models the `ValueError` Python raises
otherwise.  (Whitespace is modelled as ASCII whitespace; no claim involves
exotic Unicode spacing.) -/
def pyInt (cs : List Char) : Option Int :=
  let t := ((cs.dropWhile Char.isWhitespace).reverse.dropWhile Char.isWhitespace).reverse
  match t with
  | '+' :: rest => if pyDigits rest then some (digitsVal rest) else none
  | '-' :: rest => if pyDigits rest then some (-(digitsVal rest : Int)) else none
  | rest => if pyDigits rest then some (digitsVal rest) else none

/-- Python `s.split('.')`: split on every occurrence of `'.'`, keeping empty
pieces; `"".split('.') = [""]`. -/
def splitOnDot : List Char → List (List Char)
  | [] => [[]]
  | c :: cs =>
    if c = '.' then [] :: splitOnDot cs
    else
      match splitOnDot cs with
      | [] => [[c]]
      | p :: ps => (c :: p) :: ps

/-- One part of a dotted string passes when Python `int(part)` succeeds with a
value in `[0, 255]` (`0 <= int(part) <= 255` in the source). -/
def okPart (p : List Char) : Bool :=
  match pyInt p with
  | some n => decide (0 ≤ n) && decide (n ≤ 255)
  | none => false

/-- The method `TerraformInventory.is_valid_ip` on a string argument
(`src/inventory.py:83-89`): `parts = ip.split('.')`;
`len(parts) == 4 and all(0 <= int(part) <= 255 for part in parts)`, with a
`ValueError` from any `int(part)` caught and turned into `False`. -/
def is_valid_ip_str (ip : String) : Bool :=
  let parts := splitOnDot ip.toList
  decide (parts.length = 4) && parts.all okPart

/-- The method `is_valid_ip` on an arbitrary value: a non-string argument has no
`.split`, so the `AttributeError` is caught and the result is `False`
(`src/inventory.py:88`). -/
def is_valid_ip (v : JValue) : Bool :=
  match v with
  | .vStr s => is_valid_ip_str s
  | _ => false

/-- Python `name.replace('_ip', '')`: one left-to-right pass, every
non-overlapping occurrence of `"_ip"` removed, scanning resuming after the
removed occurrence. -/
def replaceIp : List Char → List Char
  | '_' :: 'i' :: 'p' :: rest => replaceIp rest
  | c :: rest => c :: replaceIp rest
  | [] => []

/-- Python `s.replace('_', '-')`: every underscore replaced by a dash. -/
def replaceUnderscore : List Char → List Char
  | '_' :: rest => '-' :: replaceUnderscore rest
  | c :: rest => c :: replaceUnderscore rest
  | [] => []

/-- Base-name derivation (`src/inventory.py:68` and `:75`):
`output_name.replace('_ip', '').replace('_', '-')`. -/
def baseName (name : String) : String :=
  ⟨replaceUnderscore (replaceIp name.toList)⟩

/-- Python `dict` lookup `d.get(k)` on an insertion-ordered association
list: the value of the first (and, for lists built by `dictSet`, only)
binding of `k`, or `none`. -/
def dictGet {α : Type} (d : List (String × α)) (k : String) : Option α :=
  (d.find? (fun kv => kv.1 == k)).map Prod.snd

/-- Python `dict` assignment `d[k] = v`: if `k` is already bound its value is
updated in place (position kept), otherwise the binding is appended. -/
def dictSet {α : Type} : List (String × α) → String → α → List (String × α)
  | [], k, v => [(k, v)]
  | (k0, v0) :: rest, k, v =>
    if k0 == k then (k0, v) :: rest else (k0, v0) :: dictSet rest k v

/-- The in-memory inventory document `self.inventory`
(`src/inventory.py:12-23`): `_meta.hostvars`, `all.hosts`, `all.children`,
`aws_instances.hosts`.  Host variable maps are ordered association lists of
string variables (the only values ever stored are strings). -/
structure Inventory where
  hostvars : List (String × List (String × String))
  allHosts : List String
  children : List String
  awsHosts : List String
deriving Repr, DecidableEq

/-- The skeleton document built by `TerraformInventory.__init__`
(`src/inventory.py:12-23`). -/
def initInventory : Inventory :=
  { hostvars := [], allHosts := [], children := ["aws_instances"], awsHosts := [] }

/-- The variable map stored for every host (`src/inventory.py:96-100`);
`extra_vars` is never passed by `build_inventory`, so the `terraform_*`
enrichment branch is dead and the map is always exactly these three keys. -/
def mkHostVars (ip : String) : List (String × String) :=
  [("ansible_host", ip),
   ("ansible_python_interpreter", "/usr/bin/python3"),
   ("ansible_connection", "ssh")]

/-- The method `TerraformInventory.add_host` (`src/inventory.py:91-108`): append the
hostname to both `hosts` lists and assign its variable map in `hostvars`. -/
def add_host (inv : Inventory) (hostname ip : String) : Inventory :=
  { inv with
    allHosts := inv.allHosts ++ [hostname],
    awsHosts := inv.awsHosts ++ [hostname],
    hostvars := dictSet inv.hostvars hostname (mkHostVars ip) }

/-- One Terraform output record; `value` holds the record's `"value"` member
(`output_data.get('value')`, `src/inventory.py:61`), `JValue.vNull` when
absent. -/
structure OutputRecord where
  value : JValue
deriving Repr

/-- The parsed `terraform output -json` document: output name → record, in
the key order received (`outputs.items()`, `src/inventory.py:60`). -/
abbrev OutputSet : Type := List (String × OutputRecord)

/-- The `(hostname, ip)` pairs one output contributes, in order — exactly
the `add_host` calls the loop body of `build_inventory`
(`src/inventory.py:60-77`) makes for `(name, value)`:
list values contribute every string element passing `is_valid_ip`, with the
hostname suffixed `-{i+1}` exactly when the LIST has more than one element
(`len(value) > 1`, `src/inventory.py:69`); a string value passing
`is_valid_ip` contributes one unsuffixed entry; everything else none. -/
def hostEntries (name : String) (value : JValue) : List (String × String) :=
  match value with
  | .vList elems =>
    elems.enum.filterMap (fun p =>
      match p.2 with
      | .vStr s =>
        if is_valid_ip_str s then
          some ((if 1 < elems.length then
                   baseName name ++ "-" ++ toString (p.1 + 1)
                 else baseName name), s)
        else none
      | _ => none)
  | .vStr s => if is_valid_ip_str s then [(baseName name, s)] else []
  | _ => []

/-- All `add_host` calls `build_inventory` makes, in execution order
(outputs in received order, list elements in index order). -/
def emittedHosts (outs : OutputSet) : List (String × String) :=
  (outs.map (fun nr => hostEntries nr.1 nr.2.value)).flatten

/-- The method `TerraformInventory.build_inventory` (`src/inventory.py:53-81`) as a
function of the fetched outputs: starting from the `__init__` skeleton,
perform the `add_host` calls in order. -/
def build_inventory (outs : OutputSet) : Inventory :=
  (emittedHosts outs).foldl (fun inv e => add_host inv e.1 e.2) initInventory

/-- The `hosts_added` flag of `build_inventory`: set exactly when at least
one `add_host` call was made (`src/inventory.py:57,71,77`). -/
def hostsAdded (outs : OutputSet) : Bool :=
  !(emittedHosts outs).isEmpty

/-- A run of `n` spaces, for `json.dumps` indentation. -/
def pad (n : Nat) : String := ⟨List.replicate n ' '⟩

/-- Lowercase hexadecimal digit. -/
def hexDigit (n : Nat) : Char :=
  if n < 10 then Char.ofNat (48 + n) else Char.ofNat (87 + n)

/-- Four lowercase hex digits, as in Python's `\uXXXX` escapes. -/
def hex4 (n : Nat) : String :=
  ⟨[hexDigit (n / 4096 % 16), hexDigit (n / 256 % 16), hexDigit (n / 16 % 16),
    hexDigit (n % 16)]⟩

/-- How `json.dumps` (default `ensure_ascii=True`) escapes one character:
named escapes for quote, backslash and the common control characters,
`\uXXXX` for other control characters and for everything outside printable
ASCII.  (Code points beyond the basic multilingual plane, which Python
writes as surrogate pairs, do not occur in any claim and are modelled as a
single `\uXXXX`.) -/
def escChar (c : Char) : List Char :=
  if c = '"' then ['\\', '"']
  else if c = '\\' then ['\\', '\\']
  else if c = '\n' then ['\\', 'n']
  else if c = '\r' then ['\\', 'r']
  else if c = '\t' then ['\\', 't']
  else if c = Char.ofNat 8 then ['\\', 'b']
  else if c = Char.ofNat 12 then ['\\', 'f']
  else if c.toNat < 32 ∨ 127 ≤ c.toNat then '\\' :: 'u' :: (hex4 c.toNat).toList
  else [c]

/-- A JSON string literal as `json.dumps` writes it. -/
def renderStrJ (s : String) : String :=
  "\"" ++ (⟨(s.toList.map escChar).flatten⟩ : String) ++ "\""

mutual

/-- Python `json.dumps(v, indent=ind)` at nesting level `lvl`: empty
containers inline as `[]` and `{}`; non-empty containers put each item on
its own line, indented `ind` more spaces, separated by `","` and closed at
the enclosing level (CPython's behaviour for `indent=2`,
`src/inventory.py:112` and `:123`). -/
def jsonRender (ind lvl : Nat) : JValue → String
  | .vStr s => renderStrJ s
  | .vInt n => toString n
  | .vBool b => if b then "true" else "false"
  | .vNull => "null"
  | .vList [] => "[]"
  | .vList (x :: xs) =>
    "[\n" ++ String.intercalate ",\n" (jsonRenderItems ind (lvl+1) (x :: xs)) ++
      "\n" ++ pad (ind*lvl) ++ "]"
  | .vObj [] => "\x7b\x7d"
  | .vObj (f :: fs) =>
    "\x7b\n" ++ String.intercalate ",\n" (jsonRenderFields ind (lvl+1) (f :: fs)) ++
      "\n" ++ pad (ind*lvl) ++ "\x7d"

/-- The rendered, indented items of a JSON array. -/
def jsonRenderItems (ind lvl : Nat) : List JValue → List String
  | [] => []
  | x :: xs => (pad (ind*lvl) ++ jsonRender ind lvl x) :: jsonRenderItems ind lvl xs

/-- The rendered, indented `"key": value` lines of a JSON object. -/
def jsonRenderFields (ind lvl : Nat) : List (String × JValue) → List String
  | [] => []
  | f :: fs =>
    (pad (ind*lvl) ++ renderStrJ f.1 ++ ": " ++ jsonRender ind lvl f.2) ::
      jsonRenderFields ind lvl fs

end

/-- A host's variable map as a JSON object. -/
def hostVarsToJson (vs : List (String × String)) : JValue :=
  .vObj (vs.map (fun kv => (kv.1, .vStr kv.2)))

/-- The inventory dict as the JSON document `json.dumps` receives
(`src/inventory.py:12-23` gives the fixed key layout). -/
def inventoryToJson (inv : Inventory) : JValue :=
  .vObj
    [("_meta", .vObj [("hostvars",
        .vObj (inv.hostvars.map (fun h => (h.1, hostVarsToJson h.2))))]),
     ("all", .vObj [("hosts", .vList (inv.allHosts.map .vStr)),
                    ("children", .vList (inv.children.map .vStr))]),
     ("aws_instances", .vObj [("hosts", .vList (inv.awsHosts.map .vStr))])]

/-- The method `TerraformInventory.to_json` (`src/inventory.py:110-112`):
`json.dumps(self.inventory, indent=2)`. -/
def to_json (inv : Inventory) : String :=
  jsonRender 2 0 (inventoryToJson inv)

/-- What `get_terraform_outputs` (`src/inventory.py:25-51`) can observe of
the external `terraform output -json` invocation: parsed outputs on
success, or one of the three handled failure classes (non-zero exit,
unparsable standard output, any other exception). -/
inductive FetchResult where
  | ok (outs : OutputSet)
  | calledProcessError (msg : String)
  | jsonDecodeError (msg : String)
  | otherError (msg : String)

/-- The two CLI query modes (`--list` / `--host <name>`,
`src/inventory.py:129-140`). -/
inductive Mode where
  | listMode
  | hostMode (host : String)

/-- Observable outcome of one process run: exit status, what was printed to
standard output (`none` when nothing was), and the diagnostic lines printed
to standard error. -/
structure ProcResult where
  exitCode : Nat
  stdout : Option String
  stderr : List String
deriving Repr, DecidableEq

/-- Python `repr` of a list of strings, as `print("Available outputs:",
list(outputs.keys()))` shows it (`src/inventory.py:81`). -/
def pyReprStrList (ks : List String) : String :=
  "[" ++ String.intercalate ", " (ks.map (fun k => "\x27" ++ k ++ "\x27")) ++ "]"

/-- One whole program run, given the fetch outcome and the query mode
(`main`, `output_list`, `output_host`, `src/inventory.py:114-141`):
a fetch failure prints a diagnostic to standard error and exits 1 with
nothing on standard output (`src/inventory.py:43-51`); on success the
inventory is built (with the no-hosts warning on standard error when no
`add_host` call was made, `src/inventory.py:79-81`), and the mode's JSON —
the whole document for `--list`, `hostvars.get(host, {})` for `--host` —
is printed with `indent=2`, exiting 0. -/
def runProgram (fetch : FetchResult) (mode : Mode) : ProcResult :=
  match fetch with
  | .ok outs =>
    let inv := build_inventory outs
    let warn : List String :=
      if hostsAdded outs then []
      else ["Warning: No IP address outputs found in Terraform state",
            "Available outputs: " ++ pyReprStrList (outs.map Prod.fst)]
    match mode with
    | .listMode => { exitCode := 0, stdout := some (to_json inv), stderr := warn }
    | .hostMode h =>
      { exitCode := 0,
        stdout := some (jsonRender 2 0
          (hostVarsToJson ((dictGet inv.hostvars h).getD []))),
        stderr := warn }
  | .calledProcessError msg =>
    { exitCode := 1, stdout := none,
      stderr := ["Error running terraform output: " ++ msg] }
  | .jsonDecodeError msg =>
    { exitCode := 1, stdout := none,
      stderr := ["Error parsing terraform output JSON: " ++ msg] }
  | .otherError msg =>
    { exitCode := 1, stdout := none,
      stderr := ["Error getting terraform outputs: " ++ msg] }

/-- Python dict membership `k in d`. -/
def dictHasKey {α : Type} (d : List (String × α)) (k : String) : Bool :=
  d.any (fun kv => kv.1 == k)

theorem dictGet_cons_pos {α : Type} (k0 : String) (v0 : α) (rest : List (String × α))
    (k : String) (h : k0 = k) : dictGet ((k0, v0) :: rest) k = some v0 := by
  unfold dictGet
  rw [List.find?_cons_of_pos _ (by simpa using h)]
  rfl

theorem dictGet_cons_neg {α : Type} (k0 : String) (v0 : α) (rest : List (String × α))
    (k : String) (h : k0 ≠ k) : dictGet ((k0, v0) :: rest) k = dictGet rest k := by
  unfold dictGet
  rw [List.find?_cons_of_neg _ (by simpa using h)]

theorem dictSet_nil {α : Type} (k : String) (v : α) : dictSet [] k v = [(k, v)] := rfl

theorem dictSet_cons_pos {α : Type} (k0 : String) (v0 : α) (rest : List (String × α))
    (k : String) (v : α) (h : k0 = k) :
    dictSet ((k0, v0) :: rest) k v = (k0, v) :: rest := by
  simp [dictSet, h]

theorem dictSet_cons_neg {α : Type} (k0 : String) (v0 : α) (rest : List (String × α))
    (k : String) (v : α) (h : k0 ≠ k) :
    dictSet ((k0, v0) :: rest) k v = (k0, v0) :: dictSet rest k v := by
  simp [dictSet, h]

theorem dictGet_dictSet_self {α : Type} (d : List (String × α)) (k : String) (v : α) :
    dictGet (dictSet d k v) k = some v := by
  induction d with
  | nil => rw [dictSet_nil, dictGet_cons_pos _ _ _ _ rfl]
  | cons a rest ih =>
    obtain ⟨k0, v0⟩ := a
    by_cases h : k0 = k
    · rw [dictSet_cons_pos _ _ _ _ _ h, dictGet_cons_pos _ _ _ _ h]
    · rw [dictSet_cons_neg _ _ _ _ _ h, dictGet_cons_neg _ _ _ _ h]
      exact ih

theorem dictGet_dictSet_ne {α : Type} (d : List (String × α)) (k k' : String) (v : α)
    (hne : k' ≠ k) : dictGet (dictSet d k v) k' = dictGet d k' := by
  induction d with
  | nil =>
    rw [dictSet_nil, dictGet_cons_neg _ _ _ _ (Ne.symm hne)]
  | cons a rest ih =>
    obtain ⟨k0, v0⟩ := a
    by_cases h : k0 = k
    · subst h
      rw [dictSet_cons_pos _ _ _ _ _ rfl, dictGet_cons_neg _ _ _ _ (Ne.symm hne),
        dictGet_cons_neg _ _ _ _ (Ne.symm hne)]
    · rw [dictSet_cons_neg _ _ _ _ _ h]
      by_cases h0 : k0 = k'
      · rw [dictGet_cons_pos _ _ _ _ h0, dictGet_cons_pos _ _ _ _ h0]
      · rw [dictGet_cons_neg _ _ _ _ h0, dictGet_cons_neg _ _ _ _ h0]
        exact ih

theorem dictSet_keys_of_hasKey {α : Type} (d : List (String × α)) (k : String) (v : α)
    (h : dictHasKey d k = true) :
    (dictSet d k v).map Prod.fst = d.map Prod.fst := by
  induction d with
  | nil => simp [dictHasKey] at h
  | cons a rest ih =>
    obtain ⟨k0, v0⟩ := a
    by_cases hk : k0 = k
    · rw [dictSet_cons_pos _ _ _ _ _ hk]
      simp
    · have h' : dictHasKey rest k = true := by
        simpa [dictHasKey, hk] using h
      rw [dictSet_cons_neg _ _ _ _ _ hk, List.map_cons, List.map_cons, ih h']

theorem mem_keys_dictSet {α : Type} (d : List (String × α)) (k h : String) (v : α)
    (hmem : h ∈ (dictSet d k v).map Prod.fst) :
    h ∈ d.map Prod.fst ∨ h = k := by
  induction d with
  | nil =>
    rw [dictSet_nil] at hmem
    simpa using hmem
  | cons a rest ih =>
    obtain ⟨k0, v0⟩ := a
    by_cases hk : k0 = k
    · rw [dictSet_cons_pos _ _ _ _ _ hk] at hmem
      simp only [List.map_cons, List.mem_cons] at hmem ⊢
      rcases hmem with h1 | h1
      · exact Or.inl (Or.inl h1)
      · exact Or.inl (Or.inr h1)
    · rw [dictSet_cons_neg _ _ _ _ _ hk] at hmem
      simp only [List.map_cons, List.mem_cons] at hmem ⊢
      rcases hmem with h1 | h1
      · exact Or.inl (Or.inl h1)
      · rcases ih h1 with h2 | h2
        · exact Or.inl (Or.inr h2)
        · exact Or.inr h2

theorem mem_dictSet {α : Type} (d : List (String × α)) (k : String) (v : α)
    (e : String × α) (hmem : e ∈ dictSet d k v) : e ∈ d ∨ e.2 = v := by
  induction d with
  | nil =>
    rw [dictSet_nil] at hmem
    simp only [List.mem_singleton] at hmem
    exact Or.inr (by rw [hmem])
  | cons a rest ih =>
    obtain ⟨k0, v0⟩ := a
    by_cases hk : k0 = k
    · rw [dictSet_cons_pos _ _ _ _ _ hk] at hmem
      rcases List.mem_cons.mp hmem with h1 | h1
      · exact Or.inr (by rw [h1])
      · exact Or.inl (List.mem_cons_of_mem _ h1)
    · rw [dictSet_cons_neg _ _ _ _ _ hk] at hmem
      rcases List.mem_cons.mp hmem with h1 | h1
      · exact Or.inl (by rw [h1]; exact List.mem_cons_self _ _)
      · rcases ih h1 with h2 | h2
        · exact Or.inl (List.mem_cons_of_mem _ h2)
        · exact Or.inr h2

theorem foldl_add_host_allHosts (l : List (String × String)) (inv : Inventory) :
    (l.foldl (fun i e => add_host i e.1 e.2) inv).allHosts =
      inv.allHosts ++ l.map Prod.fst := by
  induction l generalizing inv with
  | nil => simp
  | cons a rest ih =>
    rw [List.foldl_cons, ih]
    simp [add_host]

theorem foldl_add_host_awsHosts (l : List (String × String)) (inv : Inventory) :
    (l.foldl (fun i e => add_host i e.1 e.2) inv).awsHosts =
      inv.awsHosts ++ l.map Prod.fst := by
  induction l generalizing inv with
  | nil => simp
  | cons a rest ih =>
    rw [List.foldl_cons, ih]
    simp [add_host]

theorem foldl_add_host_children (l : List (String × String)) (inv : Inventory) :
    (l.foldl (fun i e => add_host i e.1 e.2) inv).children = inv.children := by
  induction l generalizing inv with
  | nil => simp
  | cons a rest ih =>
    rw [List.foldl_cons, ih]
    simp [add_host]

theorem foldl_add_host_lookup_not_mem (l : List (String × String)) (inv : Inventory)
    (h : String) (hnot : h ∉ l.map Prod.fst) :
    dictGet (l.foldl (fun i e => add_host i e.1 e.2) inv).hostvars h =
      dictGet inv.hostvars h := by
  induction l generalizing inv with
  | nil => simp
  | cons a rest ih =>
    simp only [List.map_cons, List.mem_cons, not_or] at hnot
    rw [List.foldl_cons, ih _ hnot.2]
    exact dictGet_dictSet_ne _ _ _ _ hnot.1

theorem foldl_add_host_lookup (l : List (String × String)) (inv : Inventory)
    (h ip : String) (hnd : (l.map Prod.fst).Nodup) (hmem : (h, ip) ∈ l) :
    dictGet (l.foldl (fun i e => add_host i e.1 e.2) inv).hostvars h =
      some (mkHostVars ip) := by
  induction l generalizing inv with
  | nil => simp at hmem
  | cons a rest ih =>
    obtain ⟨a1, a2⟩ := a
    simp only [List.map_cons, List.nodup_cons] at hnd
    rcases List.mem_cons.mp hmem with h1 | h1
    · rw [Prod.mk.injEq] at h1
      obtain ⟨e1, e2⟩ := h1
      subst e1
      subst e2
      rw [List.foldl_cons, foldl_add_host_lookup_not_mem _ _ _ hnd.1]
      exact dictGet_dictSet_self _ _ _
    · rw [List.foldl_cons]
      exact ih _ hnd.2 h1

example : is_valid_ip_str "1.2.3.4" = true := by decide
example : is_valid_ip_str "999.1.1.1" = false := by decide
example : is_valid_ip_str "" = false := by decide
example : baseName "ubuntu_ip" = "ubuntu" := by decide
example : baseName "db_primary_ip" = "db-primary" := by decide
example : emittedHosts [("web_ip", ⟨.vList [.vStr "1.1.1.1", .vStr "2.2.2.2"]⟩)] =
    [("web-1", "1.1.1.1"), ("web-2", "2.2.2.2")] := by decide
example : emittedHosts [("web_ip", ⟨.vList [.vStr "1.2.3.4", .vStr "hello"]⟩)] =
    [("web-1", "1.2.3.4")] := by decide
example : build_inventory [("ubuntu_ip", ⟨.vStr "13.42.7.8"⟩)] =
    { hostvars := [("ubuntu", mkHostVars "13.42.7.8")],
      allHosts := ["ubuntu"], children := ["aws_instances"],
      awsHosts := ["ubuntu"] } := by decide

theorem okPart_iff (p : List Char) :
    okPart p = true ↔ ∃ n : Int, pyInt p = some n ∧ 0 ≤ n ∧ n ≤ 255 := by
  cases hp : pyInt p <;> simp [okPart, hp]

/-- C2: the IPv4-shape predicate accepts a string iff splitting on `'.'`
yields exactly 4 parts, each parsing as a Python integer in `[0, 255]`;
it accepts `"1.2.3.4"`, `"0.0.0.0"`, `"255.255.255.255"`, rejects
`"999.1.1.1"`, `"1.2.3"`, `"abc"`, `"a.b.c.d"`, `""`, and rejects the
non-string inputs `null`, `true`, `42` (returning `false` rather than
raising). -/
theorem C2_ip_shape_predicate :
    (∀ s : String, is_valid_ip (.vStr s) = true ↔
      ((splitOnDot s.toList).length = 4 ∧
       ∀ p ∈ splitOnDot s.toList, ∃ n : Int, pyInt p = some n ∧ 0 ≤ n ∧ n ≤ 255)) ∧
    is_valid_ip (.vStr "1.2.3.4") = true ∧
    is_valid_ip (.vStr "0.0.0.0") = true ∧
    is_valid_ip (.vStr "255.255.255.255") = true ∧
    is_valid_ip (.vStr "999.1.1.1") = false ∧
    is_valid_ip (.vStr "1.2.3") = false ∧
    is_valid_ip (.vStr "abc") = false ∧
    is_valid_ip (.vStr "a.b.c.d") = false ∧
    is_valid_ip (.vStr "") = false ∧
    is_valid_ip .vNull = false ∧
    is_valid_ip (.vBool true) = false ∧
    is_valid_ip (.vInt 42) = false := by
  refine ⟨fun s => ?_, by decide, by decide, by decide, by decide, by decide,
    by decide, by decide, by decide, rfl, rfl, rfl⟩
  simp [is_valid_ip, is_valid_ip_str, List.all_eq_true, okPart_iff]

/-- C3: the base name is the output name with every occurrence of `"_ip"`
removed and then every `'_'` replaced by `'-'` (`"ubuntu_ip"` → `"ubuntu"`,
`"db_primary_ip"` → `"db-primary"`); a scalar IPv4-shaped string output
yields exactly one host entry whose hostname is that base name, with no
numeric suffix. -/
theorem C3_base_name_derivation :
    (∀ name : String, baseName name = ⟨replaceUnderscore (replaceIp name.toList)⟩) ∧
    baseName "ubuntu_ip" = "ubuntu" ∧
    baseName "db_primary_ip" = "db-primary" ∧
    baseName "web_ip" = "web" ∧
    (∀ name s : String, is_valid_ip_str s = true →
      hostEntries name (.vStr s) = [(baseName name, s)]) := by
  refine ⟨fun name => rfl, by decide, by decide, by decide, fun name s h => ?_⟩
  simp [hostEntries, h]

/-- C1 counterexample: in the list `["1.2.3.4", "hello"]` exactly one
element qualifies, yet the code emits the suffixed hostname `"web-1"`, not
the bare base name `"web"` the claim requires for a unique qualifying
element — the suffix rule follows the list's length, not the count of
qualifying elements. -/
theorem C1_single_qualifying_counterexample :
    (([JValue.vStr "1.2.3.4", JValue.vStr "hello"].filter is_valid_ip).length = 1) ∧
    hostEntries "web_ip" (.vList [.vStr "1.2.3.4", .vStr "hello"]) =
      [("web-1", "1.2.3.4")] ∧
    ("web-1" : String) ≠ baseName "web_ip" := by
  exact ⟨by decide, by decide, by decide⟩

/-- C1 as amended: a string element at 0-based position `i` satisfying the
IPv4-shape predicate yields a host entry whose hostname is
`"{base}-{i+1}"` when the sequence's length exceeds one and `"{base}"`
when the sequence has exactly one element — the suffix depends on the
sequence's length, not on how many elements qualify (in particular, more
than one qualifying element still implies the suffixed form, since a list
with two qualifying elements has length greater than one). -/
theorem C1_index_suffix_rule (name : String) (elems : List JValue) (i : Nat) (s : String)
    (hget : elems[i]? = some (.vStr s)) (hip : is_valid_ip_str s = true) :
    ((if 1 < elems.length then baseName name ++ "-" ++ toString (i + 1)
      else baseName name), s) ∈ hostEntries name (.vList elems) ∧
    (1 < (elems.filter is_valid_ip).length → 1 < elems.length) := by
  constructor
  · unfold hostEntries
    refine List.mem_filterMap.mpr ⟨(i, .vStr s), ?_, ?_⟩
    · exact List.mk_mem_enum_iff_getElem?.mpr hget
    · simp [hip]
  · intro h
    exact lt_of_lt_of_le h (List.length_filter_le _ _)

theorem C1_index_suffix_rule_witness :
    ((if 1 < ([JValue.vStr "1.1.1.1", JValue.vStr "2.2.2.2"] : List JValue).length then
        baseName "web_ip" ++ "-" ++ toString (1 + 1)
      else baseName "web_ip"), "2.2.2.2")
      ∈ hostEntries "web_ip" (.vList [.vStr "1.1.1.1", .vStr "2.2.2.2"]) ∧
    (1 < (([JValue.vStr "1.1.1.1", JValue.vStr "2.2.2.2"] : List JValue).filter
        is_valid_ip).length →
      1 < ([JValue.vStr "1.1.1.1", JValue.vStr "2.2.2.2"] : List JValue).length) :=
  C1_index_suffix_rule "web_ip" [.vStr "1.1.1.1", .vStr "2.2.2.2"] 1 "2.2.2.2" rfl (by decide)

/-- C4: adding a host whose name is already a key of `hostvars` overwrites
that key's variable map (last-write-wins) without changing the key
sequence, while the hostname is appended again to both `hosts` lists, so
duplicates remain there. -/
theorem C4_collision_overwrites_hostvars (inv : Inventory) (hostname ip : String)
    (h : dictHasKey inv.hostvars hostname = true) :
    dictGet (add_host inv hostname ip).hostvars hostname = some (mkHostVars ip) ∧
    (add_host inv hostname ip).hostvars.map Prod.fst = inv.hostvars.map Prod.fst ∧
    (add_host inv hostname ip).allHosts = inv.allHosts ++ [hostname] ∧
    (add_host inv hostname ip).awsHosts = inv.awsHosts ++ [hostname] :=
  ⟨dictGet_dictSet_self _ _ _, dictSet_keys_of_hasKey _ _ _ h, rfl, rfl⟩

theorem C4_collision_overwrites_hostvars_witness :
    dictGet (add_host (add_host initInventory "web" "1.1.1.1") "web" "2.2.2.2").hostvars
        "web" = some (mkHostVars "2.2.2.2") ∧
    (add_host (add_host initInventory "web" "1.1.1.1") "web" "2.2.2.2").hostvars.map
        Prod.fst = (add_host initInventory "web" "1.1.1.1").hostvars.map Prod.fst ∧
    (add_host (add_host initInventory "web" "1.1.1.1") "web" "2.2.2.2").allHosts =
      (add_host initInventory "web" "1.1.1.1").allHosts ++ ["web"] ∧
    (add_host (add_host initInventory "web" "1.1.1.1") "web" "2.2.2.2").awsHosts =
      (add_host initInventory "web" "1.1.1.1").awsHosts ++ ["web"] :=
  C4_collision_overwrites_hostvars (add_host initInventory "web" "1.1.1.1") "web"
    "2.2.2.2" (by decide)

/-- C5: round-trip — when no hostname collision occurred (the emitted
hostnames are pairwise distinct), every hostname in the list-mode
`aws_instances.hosts` has a hostvars entry equal to the variable map built
from the address used to create it; the host-mode query prints exactly that
non-empty map, whose `ansible_host` is that address. -/
theorem C5_list_host_round_trip (outs : OutputSet)
    (hnd : ((emittedHosts outs).map Prod.fst).Nodup)
    (host : String) (hmem : host ∈ (build_inventory outs).awsHosts) :
    ∃ ip : String, (host, ip) ∈ emittedHosts outs ∧
      dictGet (build_inventory outs).hostvars host = some (mkHostVars ip) ∧
      (runProgram (.ok outs) (.hostMode host)).stdout =
        some (jsonRender 2 0 (hostVarsToJson (mkHostVars ip))) ∧
      mkHostVars ip ≠ [] ∧
      dictGet (mkHostVars ip) "ansible_host" = some ip := by
  rw [build_inventory, foldl_add_host_awsHosts] at hmem
  simp only [initInventory, List.nil_append] at hmem
  obtain ⟨⟨h1, ip⟩, he, hfst⟩ := List.mem_map.mp hmem
  have hfst' : h1 = host := hfst
  subst hfst'
  have hget : dictGet (build_inventory outs).hostvars h1 = some (mkHostVars ip) := by
    rw [build_inventory]
    exact foldl_add_host_lookup _ _ _ _ hnd he
  refine ⟨ip, he, hget, ?_, by simp [mkHostVars], dictGet_cons_pos _ _ _ _ rfl⟩
  simp [runProgram, hget]

theorem C5_list_host_round_trip_witness :
    ∃ ip : String,
      (("web-1", ip) ∈
        emittedHosts [("web_ip", ⟨.vList [.vStr "1.1.1.1", .vStr "2.2.2.2"]⟩)]) ∧
      dictGet (build_inventory
          [("web_ip", ⟨.vList [.vStr "1.1.1.1", .vStr "2.2.2.2"]⟩)]).hostvars "web-1" =
        some (mkHostVars ip) ∧
      (runProgram (.ok [("web_ip", ⟨.vList [.vStr "1.1.1.1", .vStr "2.2.2.2"]⟩)])
          (.hostMode "web-1")).stdout =
        some (jsonRender 2 0 (hostVarsToJson (mkHostVars ip))) ∧
      mkHostVars ip ≠ [] ∧
      dictGet (mkHostVars ip) "ansible_host" = some ip :=
  C5_list_host_round_trip [("web_ip", ⟨.vList [.vStr "1.1.1.1", .vStr "2.2.2.2"]⟩)]
    (by decide) "web-1" (by decide)

/-- C6: a host-mode query for a hostname absent from the built document's
hostvars prints the empty JSON object and exits 0 — it never fails on an
unknown hostname. -/
theorem C6_unknown_host_empty_object (outs : OutputSet) (host : String)
    (h : dictGet (build_inventory outs).hostvars host = none) :
    (runProgram (.ok outs) (.hostMode host)).exitCode = 0 ∧
    (runProgram (.ok outs) (.hostMode host)).stdout = some "\x7b\x7d" := by
  constructor
  · simp [runProgram]
  · simp [runProgram, h]
    rfl

theorem C6_unknown_host_empty_object_witness :
    (runProgram (.ok [("note", ⟨.vStr "hello"⟩)]) (.hostMode "web")).exitCode = 0 ∧
    (runProgram (.ok [("note", ⟨.vStr "hello"⟩)]) (.hostMode "web")).stdout =
      some "\x7b\x7d" :=
  C6_unknown_host_empty_object [("note", ⟨.vStr "hello"⟩)] "web" (by decide)

/-- C7: any fetch failure (non-zero exit of the external command, unparsable
standard output, or any other invocation failure) is fatal: the exit status
is non-zero, nothing is printed to standard output, and a diagnostic goes to
the error stream. -/
theorem C7_fetch_failure_fatal (fetch : FetchResult) (mode : Mode)
    (h : ∀ outs : OutputSet, fetch ≠ .ok outs) :
    (runProgram fetch mode).exitCode ≠ 0 ∧
    (runProgram fetch mode).stdout = none ∧
    (runProgram fetch mode).stderr ≠ [] := by
  cases fetch with
  | ok outs => exact absurd rfl (h outs)
  | calledProcessError msg => exact ⟨by simp [runProgram], rfl, by simp [runProgram]⟩
  | jsonDecodeError msg => exact ⟨by simp [runProgram], rfl, by simp [runProgram]⟩
  | otherError msg => exact ⟨by simp [runProgram], rfl, by simp [runProgram]⟩

theorem C7_fetch_failure_fatal_witness :
    (runProgram (.calledProcessError "exit status 1") .listMode).exitCode ≠ 0 ∧
    (runProgram (.calledProcessError "exit status 1") .listMode).stdout = none ∧
    (runProgram (.calledProcessError "exit status 1") .listMode).stderr ≠ [] :=
  C7_fetch_failure_fatal (.calledProcessError "exit status 1") .listMode
    (fun _ hc => FetchResult.noConfusion hc)

/-- C8: when zero host entries were added, the run still exits 0, the
printed document is the serialized initial empty skeleton (empty hosts
lists, empty hostvars), and the error stream carries the warning naming the
available output keys. -/
theorem C8_zero_hosts_warning (outs : OutputSet) (h : emittedHosts outs = []) :
    runProgram (.ok outs) .listMode =
      { exitCode := 0,
        stdout := some (to_json initInventory),
        stderr := ["Warning: No IP address outputs found in Terraform state",
                   "Available outputs: " ++ pyReprStrList (outs.map Prod.fst)] } ∧
    build_inventory outs = initInventory ∧
    initInventory.allHosts = [] ∧ initInventory.awsHosts = [] ∧
    initInventory.hostvars = [] := by
  have hb : build_inventory outs = initInventory := by
    rw [build_inventory, h]
    rfl
  refine ⟨?_, hb, rfl, rfl, rfl⟩
  simp [runProgram, hostsAdded, h, hb]

theorem C8_zero_hosts_warning_witness :
    runProgram (.ok [("note", ⟨.vStr "hello"⟩)]) .listMode =
      { exitCode := 0,
        stdout := some (to_json initInventory),
        stderr := ["Warning: No IP address outputs found in Terraform state",
                   "Available outputs: " ++
                     pyReprStrList ([("note", (⟨.vStr "hello"⟩ : OutputRecord))].map
                       Prod.fst)] } ∧
    build_inventory [("note", ⟨.vStr "hello"⟩)] = initInventory ∧
    initInventory.allHosts = [] ∧ initInventory.awsHosts = [] ∧
    initInventory.hostvars = [] :=
  C8_zero_hosts_warning [("note", ⟨.vStr "hello"⟩)] (by decide)

/-- C9: the document printed in list mode is exactly the inventory
serialized with 2-space indentation; its JSON has exactly the top-level
keys `_meta` (containing `hostvars`), `all` (containing `hosts` and
`children`) and `aws_instances` (containing `hosts`), with `all.children`
always the one-element list `["aws_instances"]`; the concrete serialization
of the empty skeleton exhibits the 2-space-indented format byte for byte. -/
theorem C9_document_shape :
    (∀ outs : OutputSet,
      (runProgram (.ok outs) .listMode).stdout = some (to_json (build_inventory outs)) ∧
      to_json (build_inventory outs) =
        jsonRender 2 0 (inventoryToJson (build_inventory outs)) ∧
      inventoryToJson (build_inventory outs) =
        .vObj
          [("_meta", .vObj [("hostvars",
              .vObj ((build_inventory outs).hostvars.map
                (fun hv => (hv.1, hostVarsToJson hv.2))))]),
           ("all", .vObj [("hosts", .vList ((build_inventory outs).allHosts.map .vStr)),
                          ("children", .vList [.vStr "aws_instances"])]),
           ("aws_instances", .vObj [("hosts",
              .vList ((build_inventory outs).awsHosts.map .vStr))])]) ∧
    to_json initInventory =
      "\x7b\n  \"_meta\": \x7b\n    \"hostvars\": \x7b\x7d\n  \x7d,\n  \"all\": \x7b\n    \"hosts\": [],\n    \"children\": [\n      \"aws_instances\"\n    ]\n  \x7d,\n  \"aws_instances\": \x7b\n    \"hosts\": []\n  \x7d\n\x7d" := by
  refine ⟨fun outs => ⟨rfl, rfl, ?_⟩, by decide⟩
  have hc : (build_inventory outs).children = ["aws_instances"] := by
    rw [build_inventory, foldl_add_host_children]
    rfl
  simp [inventoryToJson, hc]

/-- The invariant of C10: both hosts lists agree element for element, every
hostvars key occurs in them, and every stored variable map is exactly the
three-key map `mkHostVars ip` for the entry's address `ip`. -/
def inventoryInvariant (inv : Inventory) : Prop :=
  inv.allHosts = inv.awsHosts ∧
  (∀ h ∈ inv.hostvars.map Prod.fst, h ∈ inv.allHosts) ∧
  (∀ e ∈ inv.hostvars, ∃ ip : String, e.2 = mkHostVars ip)

/-- C10: the invariant holds of the initial skeleton, is preserved by every
`add_host` call, and hence holds of the document after classification of
any output set. -/
theorem C10_invariant_preserved :
    inventoryInvariant initInventory ∧
    (∀ (inv : Inventory) (h ip : String),
      inventoryInvariant inv → inventoryInvariant (add_host inv h ip)) ∧
    (∀ outs : OutputSet, inventoryInvariant (build_inventory outs)) := by
  have hinit : inventoryInvariant initInventory := by
    refine ⟨rfl, ?_, ?_⟩ <;> simp [initInventory]
  have hstep : ∀ (inv : Inventory) (h ip : String),
      inventoryInvariant inv → inventoryInvariant (add_host inv h ip) := by
    rintro inv h ip ⟨e1, e2, e3⟩
    refine ⟨by simp [add_host, e1], ?_, ?_⟩
    · intro h' hmem
      rcases mem_keys_dictSet _ _ _ _ hmem with hm | hm
      · exact List.mem_append_left _ (e2 _ hm)
      · subst hm
        exact List.mem_append_right _ (List.mem_singleton_self _)
    · intro e hmem
      rcases mem_dictSet _ _ _ _ hmem with hm | hm
      · exact e3 _ hm
      · exact ⟨ip, hm⟩
  have hfold : ∀ (l : List (String × String)) (inv : Inventory),
      inventoryInvariant inv →
      inventoryInvariant (l.foldl (fun i e => add_host i e.1 e.2) inv) := by
    intro l
    induction l with
    | nil => intro inv hi; simpa using hi
    | cons a rest ih =>
      intro inv hi
      rw [List.foldl_cons]
      exact ih _ (hstep _ _ _ hi)
  exact ⟨hinit, hstep, fun outs => hfold _ _ hinit⟩
